import Mathlib

/-!
Verification development for the gorm-repository change-tracking and
patch-compilation core.  The Go source is shallowly embedded: Go structs
become Lean structures, `map[string]interface{}` diff maps become
association lists of `String × GoVal`, pointer arguments become `Option`,
`time.Time` instants become `Int`, UUIDs become `String`, and the fallible
JSON serializer becomes an `Option`-valued function.  Stateful pieces
(the transaction lifecycle, the deferred cache-operation queue, the
column-type cache) are embedded as explicit state-passing functions.
-/

namespace GormRepo

/-! ## String primitives

Character-list implementations of the Go string primitives the source
uses (`strings.Contains`, `strings.Split`/`SplitN` on `"."`,
`strings.TrimSpace`, `sort.Strings` order).  They are written over
`String.data` so that concrete instances evaluate inside the kernel. -/

/-- `strings.Contains(s, ".")`. -/
def containsDot (s : String) : Bool := s.data.any (fun c => c = '.')

/-- Split a character list at every dot. -/
def splitOnDotChars : List Char → List (List Char)
  | [] => [[]]
  | c :: cs =>
    if c = '.' then [] :: splitOnDotChars cs
    else
      match splitOnDotChars cs with
      | [] => [[c]]
      | h :: t => (c :: h) :: t

/-- `strings.Split(s, ".")`. -/
def splitOnDot (s : String) : List String := (splitOnDotChars s.data).map String.mk

/-- Go's `unicode.IsSpace` restricted to the ASCII whitespace appearing
in serialized JSON. -/
def wsChar (c : Char) : Bool := c = ' ' || c = '\t' || c = '\n' || c = '\r'

/-- `strings.TrimSpace`. -/
def trimSpace (s : String) : String :=
  String.mk (((s.data.dropWhile wsChar).reverse.dropWhile wsChar).reverse)

/-- Lexicographic order on character lists (byte order of `sort.Strings`
for the ASCII keys in play). -/
def charListLeb : List Char → List Char → Bool
  | [], _ => true
  | _ :: _, [] => false
  | a :: as, b :: bs => if a < b then true else if a = b then charListLeb as bs else false

/-- `sort.Strings` comparison as a proposition. -/
def strLe (a b : String) : Prop := charListLeb a.data b.data = true

instance : DecidableRel strLe := fun a b => by
  unfold strLe; infer_instance

theorem charListLeb_total (a b : List Char) :
    charListLeb a b = true ∨ charListLeb b a = true := by
  induction a generalizing b with
  | nil => left; rfl
  | cons x xs ih =>
    cases b with
    | nil => right; rfl
    | cons y ys =>
      rcases lt_trichotomy x y with h | h | h
      · left; simp [charListLeb, h]
      · subst h
        rcases ih ys with h2 | h2
        · left; simp [charListLeb, h2]
        · right; simp [charListLeb, h2]
      · right; simp [charListLeb, h]

theorem charListLeb_trans {a b c : List Char} (h1 : charListLeb a b = true)
    (h2 : charListLeb b c = true) : charListLeb a c = true := by
  induction a generalizing b c with
  | nil => rfl
  | cons x xs ih =>
    cases b with
    | nil => simp [charListLeb] at h1
    | cons y ys =>
      cases c with
      | nil => simp [charListLeb] at h2
      | cons z zs =>
        simp only [charListLeb] at h1 h2 ⊢
        by_cases hxy : x < y
        · by_cases hyz : y < z
          · rw [if_pos (lt_trans hxy hyz)]
          · rw [if_neg hyz] at h2
            by_cases hyz2 : y = z
            · subst hyz2; rw [if_pos hxy]
            · rw [if_neg hyz2] at h2; exact absurd h2 Bool.false_ne_true
        · rw [if_neg hxy] at h1
          by_cases hxy2 : x = y
          · subst hxy2
            rw [if_pos rfl] at h1
            by_cases hxz : x < z
            · rw [if_pos hxz]
            · rw [if_neg hxz] at h2 ⊢
              by_cases hxz2 : x = z
              · subst hxz2
                rw [if_pos rfl] at h2 ⊢
                exact ih h1 h2
              · rw [if_neg hxz2] at h2; exact absurd h2 Bool.false_ne_true
          · rw [if_neg hxy2] at h1; exact absurd h1 Bool.false_ne_true

theorem charListLeb_antisymm {a b : List Char} (h1 : charListLeb a b = true)
    (h2 : charListLeb b a = true) : a = b := by
  induction a generalizing b with
  | nil =>
    cases b with
    | nil => rfl
    | cons y ys => simp [charListLeb] at h2
  | cons x xs ih =>
    cases b with
    | nil => simp [charListLeb] at h1
    | cons y ys =>
      simp only [charListLeb] at h1 h2
      by_cases hxy : x < y
      · rw [if_neg (lt_asymm hxy), if_neg (ne_of_gt hxy)] at h2
        exact absurd h2 Bool.false_ne_true
      · rw [if_neg hxy] at h1
        by_cases hxy2 : x = y
        · subst hxy2
          rw [if_pos rfl] at h1
          rw [if_neg hxy, if_pos rfl] at h2
          rw [ih h1 h2]
        · rw [if_neg hxy2] at h1; exact absurd h1 Bool.false_ne_true

instance : IsTotal String strLe :=
  ⟨fun a b => charListLeb_total a.data b.data⟩

instance : IsTrans String strLe :=
  ⟨fun _ _ _ h1 h2 => charListLeb_trans h1 h2⟩

instance : IsAntisymm String strLe :=
  ⟨fun a b h1 h2 => by
    cases a; cases b
    exact congrArg String.mk (charListLeb_antisymm h1 h2)⟩

/-- Serialized JSON string literal.  String escaping is not modeled (no
embedded value in this development needs escapes). -/
def jsonQuote (s : String) : String := "\"" ++ s ++ "\""

/-- Serialized JSON boolean. -/
def jsonBool (b : Bool) : String := if b then "true" else "false"

/-- Serialized JSON number (the embedded numeric fields are integers). -/
def jsonInt (n : Int) : String := toString n

/-- Serialized JSON object from already-rendered field values, in list
order (standing in for Go's serialization of the generated structs). -/
def renderJsonObj (fields : List (String × String)) : String :=
  "\x7b" ++ String.intercalate ","
    (fields.map fun f => jsonQuote f.1 ++ ":" ++ f.2) ++ "\x7d"

/-- `isEmptyJSON` from the generated diff code: detects a serialized empty
object, empty array or null document. -/
def isEmptyJSON (jsonStr : String) : Bool :=
  let trimmed := trimSpace jsonStr
  trimmed = "\x7b\x7d" || trimmed = "[]" || trimmed = "null"

/-- One argument of a parameterized SQL expression (`gorm.Expr` argument):
either a `clause.Column` reference or an already-serialized JSON string. -/
inductive Arg where
  | column (name : String) : Arg
  | json (s : String) : Arg
deriving Repr, DecidableEq

/-- Model of `clause.Expr`: the SQL text with `?` placeholders plus its
argument list, as produced by `gorm.Expr(sql, args...)`. -/
structure SqlExpr where
  sql : String
  args : List Arg
deriving Repr, DecidableEq

/-! ## Entity structs (from utils/tests/test_models.go, v0.0.5 variant) -/

/-- `TestProfile`: Id/UserId are UUIDs (modeled as `String`). -/
structure TestProfile where
  id : String
  userId : String
  bio : String
  website : String
  settings : String
deriving Repr, DecidableEq

/-- `TestTag`.  The `Posts []*TestPost` back-reference forms a pointer
cycle in Go and is not representable as a finite inductive value; no
claim inspects it, and `TestUser.Diff` only compares tags for equality. -/
structure TestTag where
  id : String
  name : String
deriving Repr, DecidableEq

/-- `TestPost`: CreatedAt/UpdatedAt are time instants (modeled as `Int`). -/
structure TestPost where
  id : String
  userId : String
  title : String
  content : String
  published : Bool
  tags : List TestTag
  createdAt : Int
  updatedAt : Int
deriving Repr, DecidableEq

/-- `UserData` (jsonb payload, all fields `omitempty`). -/
structure UserData where
  day : Int
  nickname : String
  married : Bool
deriving Repr, DecidableEq

/-- `WhatsAppStatus` (nested jsonb payload, all fields `omitempty`). -/
structure WhatsAppStatus where
  mode : String
  state : String
  isStarted : Bool
  waVersion : String
  isOnQrPage : Bool
  isWebConnected : Bool
  qrCodeExpiresAt : String
  qrCodeUrl : String
deriving Repr, DecidableEq

/-- `WhatsAppData` (jsonb payload; `Status` is a nullable nested doc). -/
structure WhatsAppData where
  error : String
  status : Option WhatsAppStatus
  driverId : String
deriving Repr, DecidableEq

/-- `TestUser`: the main entity.  `ArchivedAt *time.Time` becomes
`Option Int`; `Data`/`WhatsAppData` are the two semi-structured (jsonb)
fields; `Profile`/`Posts` are associations. -/
structure TestUser where
  id : String
  name : String
  email : String
  age : Int
  active : Bool
  archivedAt : Option Int
  profile : Option TestProfile
  posts : List TestPost
  data : Option UserData
  whatsAppData : Option WhatsAppData
deriving Repr, DecidableEq

/-! ## JSON encodings with `omitempty` semantics -/

/-- Serialization of `UserData`: every field carries `omitempty`, so
zero-valued fields are dropped (matching `sonic.Marshal`). -/
def UserData.marshalJson (d : UserData) : String :=
  renderJsonObj ((if d.day ≠ 0 then [("day", jsonInt d.day)] else [])
    ++ (if d.nickname ≠ "" then [("nickname", jsonQuote d.nickname)] else [])
    ++ (if d.married then [("married", jsonBool d.married)] else []))

/-- Serialization of `WhatsAppStatus` with `omitempty` on every field. -/
def WhatsAppStatus.marshalJson (s : WhatsAppStatus) : String :=
  renderJsonObj ((if s.mode ≠ "" then [("mode", jsonQuote s.mode)] else [])
    ++ (if s.state ≠ "" then [("state", jsonQuote s.state)] else [])
    ++ (if s.isStarted then [("isStarted", jsonBool s.isStarted)] else [])
    ++ (if s.waVersion ≠ "" then [("waVersion", jsonQuote s.waVersion)] else [])
    ++ (if s.isOnQrPage then [("isOnQrPage", jsonBool s.isOnQrPage)] else [])
    ++ (if s.isWebConnected then [("isWebConnected", jsonBool s.isWebConnected)] else [])
    ++ (if s.qrCodeExpiresAt ≠ "" then [("qrCodeExpiresAt", jsonQuote s.qrCodeExpiresAt)] else [])
    ++ (if s.qrCodeUrl ≠ "" then [("qrCodeUrl", jsonQuote s.qrCodeUrl)] else []))

/-- Serialization of `WhatsAppData` with `omitempty` on every field. -/
def WhatsAppData.marshalJson (w : WhatsAppData) : String :=
  renderJsonObj ((if w.error ≠ "" then [("error", jsonQuote w.error)] else [])
    ++ (match w.status with
        | some s => [("status", WhatsAppStatus.marshalJson s)]
        | none => [])
    ++ (if w.driverId ≠ "" then [("driverId", jsonQuote w.driverId)] else []))

/-- Serialization of `TestProfile` (no `omitempty` on its json tags). -/
def TestProfile.marshalJson (p : TestProfile) : String :=
  renderJsonObj [("id", jsonQuote p.id), ("userId", jsonQuote p.userId),
    ("bio", jsonQuote p.bio), ("website", jsonQuote p.website),
    ("settings", jsonQuote p.settings)]

/-- Serialization of `TestTag`. -/
def TestTag.marshalJson (t : TestTag) : String :=
  renderJsonObj [("id", jsonQuote t.id), ("name", jsonQuote t.name)]

/-- Serialization of `TestPost` (`tags` carries `omitempty`). -/
def TestPost.marshalJson (p : TestPost) : String :=
  renderJsonObj ([("id", jsonQuote p.id), ("userId", jsonQuote p.userId),
    ("title", jsonQuote p.title), ("content", jsonQuote p.content),
    ("published", jsonBool p.published)]
    ++ (match p.tags with
        | [] => []
        | ts => [("tags", "[" ++ String.intercalate "," (ts.map TestTag.marshalJson) ++ "]")])
    ++ [("createdAt", jsonInt p.createdAt), ("updatedAt", jsonInt p.updatedAt)])

/-! ## Go interface values appearing in diff maps -/

/-- A Go `interface{}` value as it appears in a generated diff map:
scalars, UUIDs, times, nullable struct pointers, slices, a wrapped
`clause.Expr`, or a value the JSON serializer rejects (e.g. a function
value), which models `json.Marshal` returning an error. -/
inductive GoVal where
  | null : GoVal
  | str (s : String) : GoVal
  | int (n : Int) : GoVal
  | bool (b : Bool) : GoVal
  | uuid (s : String) : GoVal
  | timePtr (t : Option Int) : GoVal
  | statusPtr (s : Option WhatsAppStatus) : GoVal
  | profilePtr (p : Option TestProfile) : GoVal
  | posts (ps : List TestPost) : GoVal
  | userDataPtr (d : Option UserData) : GoVal
  | whatsAppDataPtr (w : Option WhatsAppData) : GoVal
  | expr (e : SqlExpr) : GoVal
  | unserializable : GoVal
deriving Repr, DecidableEq

/-- Model of `json.Marshal` on diff-map values: total on every value the
repository serializes, `none` on a value the serializer rejects. -/
def GoVal.marshal : GoVal → Option String
  | .null => some "null"
  | .str s => some (jsonQuote s)
  | .int n => some (jsonInt n)
  | .bool b => some (jsonBool b)
  | .uuid s => some (jsonQuote s)
  | .timePtr none => some "null"
  | .timePtr (some t) => some (jsonInt t)
  | .statusPtr none => some "null"
  | .statusPtr (some s) => some s.marshalJson
  | .profilePtr none => some "null"
  | .profilePtr (some p) => some p.marshalJson
  | .posts ps => some ("[" ++ String.intercalate "," (ps.map TestPost.marshalJson) ++ "]")
  | .userDataPtr none => some "null"
  | .userDataPtr (some d) => some d.marshalJson
  | .whatsAppDataPtr none => some "null"
  | .whatsAppDataPtr (some w) => some w.marshalJson
  | .expr _ => some "\x7b\x7d"
  | .unserializable => none

/-- A generated diff / change-set: `map[string]interface{}` as an
association list in insertion order (keys are distinct). -/
abbrev DiffMap := List (String × GoVal)

/-- Serialize the entries of a diff map to rendered `"key":value`
fields; fails as soon as any value is unserializable. -/
def marshalDiffMapFields : DiffMap → Option (List String)
  | [] => some []
  | p :: rest =>
    match p.2.marshal with
    | none => none
    | some js =>
      match marshalDiffMapFields rest with
      | none => none
      | some fields => some (("\"" ++ p.1 ++ "\":" ++ js) :: fields)

/-- Serialize a diff map (model of `sonic.Marshal` on the nested diff that
feeds the `||` merge expression); fails if any value is unserializable. -/
def marshalDiffMap (m : DiffMap) : Option String :=
  (marshalDiffMapFields m).map fun fields =>
    "\x7b" ++ String.intercalate "," fields ++ "\x7d"

/-! ## Generated diff engine (from utils/tests, gorm-tracked-updates output) -/

/-- Does the diff map contain a flattened (dot-notation) path? -/
def hasFlattenedPaths (m : DiffMap) : Bool :=
  m.any fun p => containsDot p.1

/-- Core of `WhatsAppStatus.Diff` for two non-nil receivers: one entry per
changed field, keyed by the field's json name, holding the new value. -/
def WhatsAppStatus.diffCore (nw old : WhatsAppStatus) : DiffMap :=
  (if nw.mode ≠ old.mode then [("mode", GoVal.str nw.mode)] else [])
  ++ (if nw.state ≠ old.state then [("state", GoVal.str nw.state)] else [])
  ++ (if nw.isStarted ≠ old.isStarted then [("isStarted", GoVal.bool nw.isStarted)] else [])
  ++ (if nw.waVersion ≠ old.waVersion then [("waVersion", GoVal.str nw.waVersion)] else [])
  ++ (if nw.isOnQrPage ≠ old.isOnQrPage then [("isOnQrPage", GoVal.bool nw.isOnQrPage)] else [])
  ++ (if nw.isWebConnected ≠ old.isWebConnected then [("isWebConnected", GoVal.bool nw.isWebConnected)] else [])
  ++ (if nw.qrCodeExpiresAt ≠ old.qrCodeExpiresAt then [("qrCodeExpiresAt", GoVal.str nw.qrCodeExpiresAt)] else [])
  ++ (if nw.qrCodeUrl ≠ old.qrCodeUrl then [("qrCodeUrl", GoVal.str nw.qrCodeUrl)] else [])

/-- `WhatsAppStatus.Diff` with the generated nil-pointer guard: returns
nil (`none`) when either pointer is nil. -/
def WhatsAppStatus.diff (nw old : Option WhatsAppStatus) : Option DiffMap :=
  match nw, old with
  | some n, some o => some (WhatsAppStatus.diffCore n o)
  | _, _ => none

/-- Core of `UserData.Diff` for two non-nil receivers. -/
def UserData.diffCore (nw old : UserData) : DiffMap :=
  (if nw.day ≠ old.day then [("day", GoVal.int nw.day)] else [])
  ++ (if nw.nickname ≠ old.nickname then [("nickname", GoVal.str nw.nickname)] else [])
  ++ (if nw.married ≠ old.married then [("married", GoVal.bool nw.married)] else [])

/-- `UserData.Diff` with the generated nil-pointer guard. -/
def UserData.diff (nw old : Option UserData) : Option DiffMap :=
  match nw, old with
  | some n, some o => some (UserData.diffCore n o)
  | _, _ => none

/-- Core of `TestProfile.Diff` for two non-nil receivers. -/
def TestProfile.diffCore (nw old : TestProfile) : DiffMap :=
  (if nw.id ≠ old.id then [("id", GoVal.uuid nw.id)] else [])
  ++ (if nw.userId ≠ old.userId then [("userId", GoVal.uuid nw.userId)] else [])
  ++ (if nw.bio ≠ old.bio then [("bio", GoVal.str nw.bio)] else [])
  ++ (if nw.website ≠ old.website then [("website", GoVal.str nw.website)] else [])
  ++ (if nw.settings ≠ old.settings then [("settings", GoVal.str nw.settings)] else [])

/-- `TestProfile.Diff` with the generated nil-pointer guard. -/
def TestProfile.diff (nw old : Option TestProfile) : Option DiffMap :=
  match nw, old with
  | some n, some o => some (TestProfile.diffCore n o)
  | _, _ => none

/-- The `Status` branch of `WhatsAppData.Diff`: when either pointer is
nil and they differ, one whole-pointer entry; when both are non-nil, the
nested diff with every key re-rooted under `"status."`. -/
def WhatsAppData.statusFieldDiff (nwS oldS : Option WhatsAppStatus) : DiffMap :=
  match nwS, oldS with
  | some s1, some s2 =>
    let nestedDiff := WhatsAppStatus.diffCore s1 s2
    if nestedDiff.length > 0 then
      nestedDiff.map (fun p => ("status." ++ p.1, p.2))
    else []
  | s1, s2 => if s1 ≠ s2 then [("status", GoVal.statusPtr s1)] else []

/-- Core of `WhatsAppData.Diff` for two non-nil receivers: `Error`,
`Status` (nested, flattened with dot notation), `DriverId`. -/
def WhatsAppData.diffCore (nw old : WhatsAppData) : DiffMap :=
  (if nw.error ≠ old.error then [("error", GoVal.str nw.error)] else [])
  ++ WhatsAppData.statusFieldDiff nw.status old.status
  ++ (if nw.driverId ≠ old.driverId then [("driverId", GoVal.str nw.driverId)] else [])

/-- `WhatsAppData.Diff` with the generated nil-pointer guard. -/
def WhatsAppData.diff (nw old : Option WhatsAppData) : Option DiffMap :=
  match nw, old with
  | some n, some o => some (WhatsAppData.diffCore n o)
  | _, _ => none

/-- The `Profile` branch of `TestUser.Diff` (pointer-to-struct field):
whole-pointer entry on a nil transition, otherwise the nested diff
re-rooted under `"profile."`. -/
def TestUser.profileFieldDiff (nwP oldP : Option TestProfile) : DiffMap :=
  match nwP, oldP with
  | some p1, some p2 =>
    let nestedDiff := TestProfile.diffCore p1 p2
    if nestedDiff.length > 0 then
      nestedDiff.map (fun p => ("profile." ++ p.1, p.2))
    else []
  | p1, p2 => if p1 ≠ p2 then [("profile", GoVal.profilePtr p1)] else []

/-- The `Data` branch of `TestUser.Diff` (jsonb field): nil→non-nil emits
the whole marshaled value as a `|| `-merge expression unless it
serializes empty; non-nil→nil emits an explicit null; both non-nil takes
the attribute diff, flattening under `"data."` only when the nested diff
already contains dotted keys, otherwise emitting a single merge
expression over the changed attributes (direct assignment if the
serializer fails). -/
def TestUser.dataFieldDiff (nwD oldD : Option UserData) : DiffMap :=
  match nwD, oldD with
  | none, some _ => [("data", GoVal.null)]
  | some d, none =>
    (match (GoVal.userDataPtr (some d)).marshal with
     | some jsonValue =>
       if ¬ isEmptyJSON jsonValue then
         [("data", GoVal.expr ⟨"? || ?", [Arg.column "data", Arg.json jsonValue]⟩)]
       else []
     | none => [("data", GoVal.userDataPtr (some d))])
  | some d1, some d2 =>
    let dataDiff := UserData.diffCore d1 d2
    if dataDiff.length > 0 then
      if hasFlattenedPaths dataDiff then
        dataDiff.map (fun p => ("data." ++ p.1, p.2))
      else
        match marshalDiffMap dataDiff with
        | some jsonValue =>
          if ¬ isEmptyJSON jsonValue then
            [("data", GoVal.expr ⟨"? || ?", [Arg.column "data", Arg.json jsonValue]⟩)]
          else []
        | none => [("data", GoVal.userDataPtr (some d1))]
    else []
  | none, none => []

/-- The `WhatsAppData` branch of `TestUser.Diff` (jsonb field), same
shape as the `Data` branch with column `whats_app_data`. -/
def TestUser.whatsAppDataFieldDiff (nwW oldW : Option WhatsAppData) : DiffMap :=
  match nwW, oldW with
  | none, some _ => [("whatsAppData", GoVal.null)]
  | some w, none =>
    (match (GoVal.whatsAppDataPtr (some w)).marshal with
     | some jsonValue =>
       if ¬ isEmptyJSON jsonValue then
         [("whatsAppData", GoVal.expr ⟨"? || ?", [Arg.column "whats_app_data", Arg.json jsonValue]⟩)]
       else []
     | none => [("whatsAppData", GoVal.whatsAppDataPtr (some w))])
  | some w1, some w2 =>
    let whatsAppDataDiff := WhatsAppData.diffCore w1 w2
    if whatsAppDataDiff.length > 0 then
      if hasFlattenedPaths whatsAppDataDiff then
        whatsAppDataDiff.map (fun p => ("whatsAppData." ++ p.1, p.2))
      else
        match marshalDiffMap whatsAppDataDiff with
        | some jsonValue =>
          if ¬ isEmptyJSON jsonValue then
            [("whatsAppData", GoVal.expr ⟨"? || ?", [Arg.column "whats_app_data", Arg.json jsonValue]⟩)]
          else []
        | none => [("whatsAppData", GoVal.whatsAppDataPtr (some w1))]
    else []
  | none, none => []

/-- Core of `TestUser.Diff` for two non-nil receivers, field blocks in
source order: Id, Name, Email, Age, Active, ArchivedAt, Profile, Posts,
Data, WhatsAppData. -/
def TestUser.diffCore (nw old : TestUser) : DiffMap :=
  (if nw.id ≠ old.id then [("id", GoVal.uuid nw.id)] else [])
  ++ (if nw.name ≠ old.name then [("name", GoVal.str nw.name)] else [])
  ++ (if nw.email ≠ old.email then [("email", GoVal.str nw.email)] else [])
  ++ (if nw.age ≠ old.age then [("age", GoVal.int nw.age)] else [])
  ++ (if nw.active ≠ old.active then [("active", GoVal.bool nw.active)] else [])
  ++ (if nw.archivedAt.isNone ≠ old.archivedAt.isNone
        || (match nw.archivedAt, old.archivedAt with
            | some a, some b => a ≠ b
            | _, _ => false)
      then [("archivedAt", GoVal.timePtr nw.archivedAt)] else [])
  ++ TestUser.profileFieldDiff nw.profile old.profile
  ++ (if nw.posts ≠ old.posts then [("posts", GoVal.posts nw.posts)] else [])
  ++ TestUser.dataFieldDiff nw.data old.data
  ++ TestUser.whatsAppDataFieldDiff nw.whatsAppData old.whatsAppData

/-- `TestUser.Diff` with the generated nil-pointer guard: returns nil
(`none`) when either pointer is nil, even if the other side is fully
populated. -/
def TestUser.diff (nw old : Option TestUser) : Option DiffMap :=
  match nw, old with
  | some n, some o => some (TestUser.diffCore n o)
  | _, _ => none

/-! ## Column-type resolution (gorm_repository.go: getJSONColumnType) -/

/-- The process-wide `jsonColumnTypeCache` (`sync.Map`) as a partial map
from `"table.column"` keys to resolved subtypes. -/
abbrev ColumnTypeCache := String → Option String

/-- The empty column-type cache. -/
def emptyColumnTypeCache : ColumnTypeCache := fun _ => none

/-- `sync.Map.Store`. -/
def cacheStore (c : ColumnTypeCache) (k v : String) : ColumnTypeCache :=
  fun q => if q = k then some v else c q

/-- `getJSONColumnType`: `metaLookup` models the `information_schema`
query (`none` = query error; `some dt` = the scanned `data_type`, with
`some ""` for an empty result).  Returns the resolved subtype, the
updated cache, and whether a metadata query was issued. -/
def getJSONColumnType (metaLookup : String → String → Option String)
    (cache : ColumnTypeCache) (tableName columnName : String) :
    String × ColumnTypeCache × Bool :=
  let cacheKey := tableName ++ "." ++ columnName
  match cache cacheKey with
  | some cached => (cached, cache, false)
  | none =>
    let columnType :=
      match metaLookup tableName columnName with
      | none => "jsonb"
      | some dt => if dt ≠ "json" && dt ≠ "jsonb" then "jsonb" else dt
    (columnType, cacheStore cache cacheKey columnType, true)

/-! ## Patch compilation (processJSONBDiff / buildJSONBSetExpression) -/

/-- A GORM schema field: struct field name and database column name. -/
structure GormField where
  name : String
  dbName : String
deriving Repr, DecidableEq

/-- `strings.ToUpper(s[:1]) + s[1:]` (camelCase → PascalCase). -/
def upFirst (s : String) : String :=
  match s.data with
  | [] => s
  | c :: cs => String.mk (c.toUpper :: cs)

/-- `schema.LookUpField(fieldName)` with the camelCase → PascalCase
retry used at both call sites. -/
def lookUpFieldWithPascal (schemaLookup : String → Option GormField)
    (fieldName : String) : Option GormField :=
  match schemaLookup fieldName with
  | some f => some f
  | none =>
    if fieldName.length > 0 then schemaLookup (upFirst fieldName) else none

/-- The database column name used by `buildJSONBSetExpression`: the
schema field's `DBName`, falling back to the field name as-is. -/
def columnNameFor (schemaLookup : String → Option GormField) (fieldName : String) : String :=
  match lookUpFieldWithPascal schemaLookup fieldName with
  | some f => f.dbName
  | none => fieldName

/-- Go map indexing `paths[path]` on the embedded sub-path map. -/
def valOf (paths : List (String × GoVal)) (path : String) : Option GoVal :=
  (paths.find? (fun p => p.1 = path)).map Prod.snd

/-- Convert a dotted sub-path to PostgreSQL text-array syntax, e.g.
`"state.code"` to `"\x7bstate,code\x7d"`. -/
def pathArrayOf (path : String) : String :=
  "\x7b" ++ String.intercalate "," (splitOnDot path) ++ "\x7d"

/-- One iteration of the `buildJSONBSetExpression` loop: wrap the
expression in another `jsonb_set` step for `path`, skipping the path
when its value cannot be marshaled. -/
def buildStep (paths : List (String × GoVal)) (acc : String × List Arg)
    (path : String) : String × List Arg :=
  match valOf paths path with
  | none => acc
  | some value =>
    match value.marshal with
    | none => acc
    | some valueJSON =>
      ("jsonb_set(" ++ acc.1 ++ ", '" ++ pathArrayOf path ++ "', ?::jsonb)",
       acc.2 ++ [Arg.json valueJSON])

/-- `buildJSONBSetExpression`: seeds the expression with the column value
coalesced to an empty document and cast to the resolved subtype, then
nests one `jsonb_set` step per path in `sort.Strings` order, skipping a
path whose value cannot be marshaled.  Returns the expression and the
updated column-type cache. -/
def buildJSONBSetExpression (schemaLookup : String → Option GormField)
    (metaLookup : String → String → Option String) (cache : ColumnTypeCache)
    (tableName fieldName : String) (paths : List (String × GoVal)) :
    SqlExpr × ColumnTypeCache :=
  let columnName := columnNameFor schemaLookup fieldName
  let resolved := getJSONColumnType metaLookup cache tableName columnName
  let expr0 := "COALESCE(?::" ++ resolved.1 ++ ", '\x7b\x7d'::jsonb)"
  let args0 : List Arg := [Arg.column columnName]
  let sortedPaths := (paths.map Prod.fst).insertionSort strLe
  let r := sortedPaths.foldl (buildStep paths) (expr0, args0)
  (⟨r.1, r.2⟩, resolved.2.1)

/-- `strings.SplitN(key, ".", 2)`: root before the first dot and the
remaining sub-path. -/
def splitRootPath (key : String) : String × String :=
  match splitOnDot key with
  | [] => (key, "")
  | root :: rest => (root, String.intercalate "." rest)

/-- Append a `(subPath, value)` pair to the group of `root`, creating the
group on first use (model of `grouped[fieldName][subPath] = value`,
groups kept in first-occurrence order). -/
def assocAppend (g : List (String × List (String × GoVal))) (root : String)
    (p : String × GoVal) : List (String × List (String × GoVal)) :=
  if g.any (fun q => q.1 = root) then
    g.map (fun q => if q.1 = root then (q.1, q.2 ++ [p]) else q)
  else g ++ [(root, [p])]

/-- One step of the grouping pass of `processJSONBDiff`: a dotted key is
split at the first dot and filed under its root, a plain key passes
straight into the result map. -/
def groupStep (acc : DiffMap × List (String × List (String × GoVal)))
    (kv : String × GoVal) : DiffMap × List (String × List (String × GoVal)) :=
  if containsDot kv.1 then
    let rp := splitRootPath kv.1
    (acc.1, assocAppend acc.2 rp.1 (rp.2, kv.2))
  else (acc.1 ++ [kv], acc.2)

/-- The result-map key for a group: the struct field name when the schema
knows the root (camelCase or PascalCase), otherwise the root itself. -/
def resultKeyOf (schemaLookup : String → Option GormField) (fieldName : String) : String :=
  match lookUpFieldWithPascal schemaLookup fieldName with
  | some f => f.name
  | none => fieldName

/-- The second pass of `processJSONBDiff`: compile each group into a
`jsonb_set` expression, threading the column-type cache. -/
def compileGroups (schemaLookup : String → Option GormField)
    (metaLookup : String → String → Option String) (cache : ColumnTypeCache)
    (tableName : String) (groups : List (String × List (String × GoVal))) :
    DiffMap × ColumnTypeCache :=
  groups.foldl (fun acc g =>
    let r := buildJSONBSetExpression schemaLookup metaLookup acc.2 tableName g.1 g.2
    (acc.1 ++ [(resultKeyOf schemaLookup g.1, GoVal.expr r.1)], r.2)) ([], cache)

/-- `processJSONBDiff`: plain keys pass through; dotted keys are grouped
by root and compiled into per-column `jsonb_set` expressions. -/
def processJSONBDiff (schemaLookup : String → Option GormField)
    (metaLookup : String → String → Option String) (cache : ColumnTypeCache)
    (tableName : String) (diff : DiffMap) : DiffMap × ColumnTypeCache :=
  let pg := diff.foldl groupStep ([], [])
  let ce := compileGroups schemaLookup metaLookup cache tableName pg.2
  (pg.1 ++ ce.1, ce.2)

/-! ## Transaction lifecycle, deferred queue, baseline snapshots
(gorm_repository.go / the cache-manager variant in the same package) -/

/-- A queued deferred (cache) operation: an id for tracing execution and
the error the operation returns when run. -/
structure CacheOp where
  opId : Nat
  err : Option String
deriving Repr, DecidableEq

/-- `TransactionCacheManager`: the FIFO queue of deferred operations. -/
structure TransactionCacheManager where
  pendingOperations : List CacheOp
deriving Repr, DecidableEq

/-- `NewTransactionCacheManager`. -/
def NewTransactionCacheManager : TransactionCacheManager := ⟨[]⟩

/-- `QueueOperation`: FIFO append. -/
def TransactionCacheManager.queueOperation (tcm : TransactionCacheManager)
    (op : CacheOp) : TransactionCacheManager :=
  ⟨tcm.pendingOperations ++ [op]⟩

/-- The `ExecuteOnCommit` loop body: every operation runs in queue order;
a failing operation is only logged, so it neither stops the loop nor
surfaces an error.  Returns the executed operation ids in order. -/
def execLoop : List CacheOp → List Nat
  | [] => []
  | op :: rest => op.opId :: execLoop rest

/-- `ExecuteOnCommit`: run all queued operations FIFO, then clear. -/
def TransactionCacheManager.executeOnCommit (tcm : TransactionCacheManager) :
    List Nat × TransactionCacheManager :=
  (execLoop tcm.pendingOperations, ⟨[]⟩)

/-- `ClearOnRollback`: discard the queue without executing anything. -/
def TransactionCacheManager.clearOnRollback (_tcm : TransactionCacheManager) :
    TransactionCacheManager := ⟨[]⟩

/-- `Tx`: terminal flags, the per-transaction baseline-snapshot map
`clonedEntities` (snapshot values are opaque `interface{}` values), and
the deferred-operation queue. -/
structure Tx where
  committed : Bool
  rolledBack : Bool
  clonedEntities : String → Option GoVal
  cacheManager : TransactionCacheManager

/-- `BeginTransaction`: fresh flags, empty snapshot map, empty queue. -/
def beginTransaction : Tx :=
  ⟨false, false, fun _ => none, NewTransactionCacheManager⟩

/-- Outcome of a lifecycle call: returned error, resulting transaction,
ids of deferred operations executed by the call, and whether the
underlying store was invoked at all. -/
structure TxResult where
  err : Option String
  tx : Tx
  executedOps : List Nat
  storeCalled : Bool

/-- `Tx.Commit`: no-op returning nil once terminal; otherwise delegate to
the store (`storeErr` is the store's answer) and, on success, mark
committed and drain the deferred queue. -/
def Tx.commit (storeErr : Option String) (tx : Tx) : TxResult :=
  if tx.committed || tx.rolledBack then ⟨none, tx, [], false⟩
  else
    match storeErr with
    | some e => ⟨some e, tx, [], true⟩
    | none =>
      let r := tx.cacheManager.executeOnCommit
      ⟨none, { tx with committed := true, cacheManager := r.2 }, r.1, true⟩

/-- `Tx.Rollback`: no-op returning nil once terminal; otherwise delegate
to the store and, on success, mark rolled back and discard the queue
without executing anything. -/
def Tx.rollback (storeErr : Option String) (tx : Tx) : TxResult :=
  if tx.committed || tx.rolledBack then ⟨none, tx, [], false⟩
  else
    match storeErr with
    | some e => ⟨some e, tx, [], true⟩
    | none =>
      ⟨none,
       { tx with
          rolledBack := true
          cacheManager := tx.cacheManager.clearOnRollback },
       [], true⟩

/-- `Tx.Finish(&err)`: no-op once terminal; rollback when the referenced
error is non-nil (a rollback error does not override it); commit
otherwise, storing the commit error into the reference. -/
def Tx.finish (errRef : Option String) (storeErr : Option String) (tx : Tx) : TxResult :=
  if tx.committed || tx.rolledBack then ⟨errRef, tx, [], false⟩
  else
    match errRef with
    | some _ =>
      let r := tx.rollback storeErr
      ⟨errRef, r.tx, r.executedOps, r.storeCalled⟩
    | none => tx.commit storeErr

/-- `Tx.QueueCacheOperation`. -/
def Tx.queueCacheOperation (op : CacheOp) (tx : Tx) : Tx :=
  { tx with cacheManager := tx.cacheManager.queueOperation op }

/-- `Tx.storeClonedEntity`: unconditional map assignment
`tx.clonedEntities[entityKey] = original`. -/
def Tx.storeClonedEntity (tx : Tx) (entityKey : String) (original : GoVal) : Tx :=
  { tx with clonedEntities :=
      fun q => if q = entityKey then some original else tx.clonedEntities q }

/-- `Tx.getClonedEntity`. -/
def Tx.getClonedEntity (tx : Tx) (entityKey : String) : Option GoVal :=
  tx.clonedEntities entityKey

/-! ## Helper lemmas -/

theorem execLoop_eq_map (l : List CacheOp) : execLoop l = l.map CacheOp.opId := by
  induction l with
  | nil => rfl
  | cons op rest ih => simp [execLoop, ih]

theorem sort_perm_eq {as bs : List String} (h : as.Perm bs) :
    as.insertionSort strLe = bs.insertionSort strLe :=
  List.eq_of_perm_of_sorted
    ((List.perm_insertionSort strLe as).trans (h.trans (List.perm_insertionSort strLe bs).symm))
    (List.sorted_insertionSort strLe as) (List.sorted_insertionSort strLe bs)

theorem valOf_perm {l l' : List (String × GoVal)} (h : l'.Perm l)
    (hn : (l.map Prod.fst).Nodup) (k : String) :
    valOf l' k = valOf l k := by
  unfold valOf
  cases hfl : l'.find? (fun p => p.1 = k) with
  | none =>
    cases hfl2 : l.find? (fun p => p.1 = k) with
    | none => rfl
    | some a =>
      have hmem : a ∈ l' := h.mem_iff.mpr (List.mem_of_find?_eq_some hfl2)
      have hnone := List.find?_eq_none.mp hfl a hmem
      simp [List.find?_some hfl2] at hnone
  | some a =>
    cases hfl2 : l.find? (fun p => p.1 = k) with
    | none =>
      have hmem : a ∈ l := h.mem_iff.mp (List.mem_of_find?_eq_some hfl)
      have hnone := List.find?_eq_none.mp hfl2 a hmem
      simp [List.find?_some hfl] at hnone
    | some b =>
      have hamem : a ∈ l := h.mem_iff.mp (List.mem_of_find?_eq_some hfl)
      have hbmem : b ∈ l := List.mem_of_find?_eq_some hfl2
      have hak : a.1 = k := by simpa using List.find?_some hfl
      have hbk : b.1 = k := by simpa using List.find?_some hfl2
      have hab : a = b := List.inj_on_of_nodup_map hn hamem hbmem (by rw [hak, hbk])
      rw [hab]

/-- Spec-level view of the argument list the build loop produces: one
serialized JSON argument per key whose value marshals, in key order. -/
def buildArgsSpec (paths : List (String × GoVal)) (ks : List String) : List Arg :=
  ks.filterMap fun k => (valOf paths k).bind fun v => v.marshal.map Arg.json

/-- Spec-level view of the SQL text the build loop produces: one
`jsonb_set` wrapper per key whose value marshals, in key order. -/
def buildSqlSpec (paths : List (String × GoVal)) (seed : String) (ks : List String) : String :=
  ks.foldl (fun e k =>
    match (valOf paths k).bind GoVal.marshal with
    | none => e
    | some _ => "jsonb_set(" ++ e ++ ", '" ++ pathArrayOf k ++ "', ?::jsonb)") seed

theorem buildFold_char (paths : List (String × GoVal)) :
    ∀ (ks : List String) (e : String) (ar : List Arg),
    ks.foldl (buildStep paths) (e, ar)
      = (buildSqlSpec paths e ks, ar ++ buildArgsSpec paths ks) := by
  intro ks
  induction ks with
  | nil => intro e ar; simp [buildSqlSpec, buildArgsSpec]
  | cons k rest ih =>
    intro e ar
    simp only [List.foldl_cons]
    cases hv : (valOf paths k).bind GoVal.marshal with
    | none =>
      have hstep : buildStep paths (e, ar) k = (e, ar) := by
        unfold buildStep
        cases hvo : valOf paths k with
        | none => rfl
        | some v =>
          simp only [hvo, Option.some_bind] at hv
          simp [hv]
      have hf : ((valOf paths k).bind fun v => v.marshal.map Arg.json) = none := by
        cases hvo : valOf paths k with
        | none => rfl
        | some v =>
          simp only [hvo, Option.some_bind] at hv
          simp [hv]
      rw [hstep, ih]
      simp [buildSqlSpec, buildArgsSpec, List.filterMap_cons, hf, hv]
    | some js =>
      have hstep : buildStep paths (e, ar) k
          = ("jsonb_set(" ++ e ++ ", '" ++ pathArrayOf k ++ "', ?::jsonb)",
             ar ++ [Arg.json js]) := by
        unfold buildStep
        cases hvo : valOf paths k with
        | none => simp [hvo] at hv
        | some v =>
          simp only [hvo, Option.some_bind] at hv
          simp [hv]
      have hf : ((valOf paths k).bind fun v => v.marshal.map Arg.json)
          = some (Arg.json js) := by
        cases hvo : valOf paths k with
        | none => simp [hvo] at hv
        | some v =>
          simp only [hvo, Option.some_bind] at hv
          simp [hv]
      rw [hstep, ih]
      simp [buildSqlSpec, buildArgsSpec, List.filterMap_cons, hf, hv]

theorem build_args_eq (schemaLookup : String → Option GormField)
    (metaLookup : String → String → Option String) (cache : ColumnTypeCache)
    (tableName fieldName : String) (paths : List (String × GoVal)) :
    (buildJSONBSetExpression schemaLookup metaLookup cache tableName fieldName paths).1.args
      = Arg.column (columnNameFor schemaLookup fieldName)
        :: buildArgsSpec paths ((paths.map Prod.fst).insertionSort strLe) := by
  simp [buildJSONBSetExpression, buildFold_char paths]

theorem build_sql_eq (schemaLookup : String → Option GormField)
    (metaLookup : String → String → Option String) (cache : ColumnTypeCache)
    (tableName fieldName : String) (paths : List (String × GoVal)) :
    (buildJSONBSetExpression schemaLookup metaLookup cache tableName fieldName paths).1.sql
      = buildSqlSpec paths
          ("COALESCE(?::"
            ++ (getJSONColumnType metaLookup cache tableName
                  (columnNameFor schemaLookup fieldName)).1
            ++ ", '\x7b\x7d'::jsonb)")
          ((paths.map Prod.fst).insertionSort strLe) := by
  simp [buildJSONBSetExpression, buildFold_char paths]

theorem groupFold_plain (diff : DiffMap) :
    ∀ acc : DiffMap × List (String × List (String × GoVal)),
    (diff.foldl groupStep acc).1 = acc.1 ++ diff.filter (fun p => !(containsDot p.1)) := by
  induction diff with
  | nil => intro acc; simp
  | cons kv rest ih =>
    intro acc
    simp only [List.foldl_cons]
    rw [ih]
    cases hb : containsDot kv.1 <;>
      simp [groupStep, hb, List.filter_cons]

theorem whatsAppStatus_diffCore_self (s : WhatsAppStatus) :
    WhatsAppStatus.diffCore s s = [] := by
  simp [WhatsAppStatus.diffCore]

theorem userData_diffCore_self (d : UserData) : UserData.diffCore d d = [] := by
  simp [UserData.diffCore]

theorem testProfile_diffCore_self (p : TestProfile) : TestProfile.diffCore p p = [] := by
  simp [TestProfile.diffCore]

theorem WhatsAppData.statusFieldDiff_self (s : Option WhatsAppStatus) :
    WhatsAppData.statusFieldDiff s s = [] := by
  cases s with
  | none => simp [WhatsAppData.statusFieldDiff]
  | some v => simp [WhatsAppData.statusFieldDiff, whatsAppStatus_diffCore_self]

theorem whatsAppData_diffCore_self (w : WhatsAppData) : WhatsAppData.diffCore w w = [] := by
  simp [WhatsAppData.diffCore, WhatsAppData.statusFieldDiff_self]

theorem TestUser.profileFieldDiff_self (p : Option TestProfile) :
    TestUser.profileFieldDiff p p = [] := by
  cases p with
  | none => simp [TestUser.profileFieldDiff]
  | some v => simp [TestUser.profileFieldDiff, testProfile_diffCore_self]

theorem TestUser.dataFieldDiff_self (d : Option UserData) :
    TestUser.dataFieldDiff d d = [] := by
  cases d with
  | none => simp [TestUser.dataFieldDiff]
  | some v => simp [TestUser.dataFieldDiff, userData_diffCore_self]

theorem TestUser.whatsAppDataFieldDiff_self (w : Option WhatsAppData) :
    TestUser.whatsAppDataFieldDiff w w = [] := by
  cases w with
  | none => simp [TestUser.whatsAppDataFieldDiff]
  | some v => simp [TestUser.whatsAppDataFieldDiff, whatsAppData_diffCore_self]

theorem testUser_diffCore_self (u : TestUser) : TestUser.diffCore u u = [] := by
  cases u with
  | mk i n em ag ac ar pr po da wa =>
    cases ar <;>
      simp [TestUser.diffCore, TestUser.profileFieldDiff_self, TestUser.dataFieldDiff_self,
        TestUser.whatsAppDataFieldDiff_self]

/-! ## Claims -/

/-- C9: diffing any snapshot against itself yields an empty change-set:
for every entity value, `Diff(x, x)` contains no entries (shown for the
generated `TestUser.Diff` and `WhatsAppStatus.Diff`, whose nested
branches cover `WhatsAppData`, `UserData` and `TestProfile`). -/
theorem c9_diff_self_empty (u : TestUser) (w : WhatsAppStatus) :
    TestUser.diff (some u) (some u) = some []
    ∧ WhatsAppStatus.diff (some w) (some w) = some [] := by
  constructor
  · simp [TestUser.diff, testUser_diffCore_self]
  · simp [WhatsAppStatus.diff, whatsAppStatus_diffCore_self]

/-- C10: the generated `Diff(new, old)` returns nil — an empty
change-set — whenever either the receiver or the argument is a nil
pointer, even if the other side is fully populated, so a caller that
diffs a populated entity against a nil baseline pointer observes no
changes at all. -/
theorem c10_nil_pointer_guard (u : TestUser) (w : WhatsAppData) :
    TestUser.diff (some u) none = none
    ∧ TestUser.diff none (some u) = none
    ∧ TestUser.diff none none = none
    ∧ WhatsAppData.diff (some w) none = none
    ∧ WhatsAppData.diff none (some w) = none :=
  ⟨rfl, rfl, rfl, rfl, rfl⟩

/-- C1 counterexample: storing a snapshot twice for the same entity key
in one transaction does NOT keep the first snapshot — the second store
replaces it (`tx.clonedEntities[entityKey] = original` is an
unconditional map assignment, not put-if-absent). -/
theorem c1_counterexample :
    ((beginTransaction.storeClonedEntity "TestUser_1" (GoVal.int 10)).storeClonedEntity
        "TestUser_1" (GoVal.int 20)).getClonedEntity "TestUser_1" = some (GoVal.int 20)
    ∧ ((beginTransaction.storeClonedEntity "TestUser_1" (GoVal.int 10)).storeClonedEntity
        "TestUser_1" (GoVal.int 20)).getClonedEntity "TestUser_1" ≠ some (GoVal.int 10) := by
  constructor
  · rfl
  · decide

/-- C1 amended: the per-transaction baseline-snapshot map is
last-write-wins: a store for an identity always replaces any earlier
snapshot for that identity (so a later diff in the transaction compares
against the most recently stored snapshot), while snapshots for other
identities are untouched. -/
theorem c1_amended_last_write_wins (tx : Tx) (k k2 : String) (v : GoVal)
    (h : k2 ≠ k) :
    (tx.storeClonedEntity k v).getClonedEntity k = some v
    ∧ (tx.storeClonedEntity k v).getClonedEntity k2 = tx.getClonedEntity k2 := by
  constructor
  · simp [Tx.storeClonedEntity, Tx.getClonedEntity]
  · simp [Tx.storeClonedEntity, Tx.getClonedEntity, h]

/-- Witness for C1 amended at a concrete transaction and keys. -/
theorem c1_amended_last_write_wins_witness :
    ("TestProfile_2" : String) ≠ "TestUser_1"
    ∧ ((beginTransaction.storeClonedEntity "TestUser_1" (GoVal.int 7)).getClonedEntity
          "TestUser_1" = some (GoVal.int 7)
       ∧ (beginTransaction.storeClonedEntity "TestUser_1" (GoVal.int 7)).getClonedEntity
          "TestProfile_2" = beginTransaction.getClonedEntity "TestProfile_2") :=
  ⟨by decide,
   c1_amended_last_write_wins beginTransaction "TestUser_1" "TestProfile_2"
     (GoVal.int 7) (by decide)⟩

/-- C6: once a transaction is terminal (committed or rolled back), every
further `Commit`, `Rollback` or `Finish` is a no-op returning nil that
never touches the underlying store; in particular, after a successful
`Rollback` a `Commit` is such a no-op, and after a successful `Commit` a
`Rollback` is such a no-op. -/
theorem c6_terminal_idempotent (tx tx0 : Tx) (storeErr errRef : Option String)
    (h : tx.committed = true ∨ tx.rolledBack = true)
    (hc : tx0.committed = false) (hr : tx0.rolledBack = false) :
    tx.commit storeErr = ⟨none, tx, [], false⟩
    ∧ tx.rollback storeErr = ⟨none, tx, [], false⟩
    ∧ tx.finish errRef storeErr = ⟨errRef, tx, [], false⟩
    ∧ (tx0.rollback none).tx.commit storeErr
        = ⟨none, (tx0.rollback none).tx, [], false⟩
    ∧ (tx0.commit none).tx.rollback storeErr
        = ⟨none, (tx0.commit none).tx, [], false⟩ := by
  have hcond : (tx.committed || tx.rolledBack) = true := by
    rcases h with h | h <;> simp [h]
  refine ⟨?_, ?_, ?_, ?_, ?_⟩
  · simp [Tx.commit, hcond]
  · simp [Tx.rollback, hcond]
  · simp [Tx.finish, hcond]
  · simp [Tx.rollback, Tx.commit, hc, hr, TransactionCacheManager.clearOnRollback]
  · simp [Tx.commit, Tx.rollback, hc, hr, TransactionCacheManager.executeOnCommit]

/-- Witness for C6 at a concrete committed transaction, a concrete open
transaction, and concrete store/error values. -/
theorem c6_terminal_idempotent_witness :
    (({ beginTransaction with committed := true } : Tx).committed = true
      ∨ ({ beginTransaction with committed := true } : Tx).rolledBack = true)
    ∧ beginTransaction.committed = false
    ∧ beginTransaction.rolledBack = false
    ∧ (({ beginTransaction with committed := true } : Tx).commit (some "boom")
          = ⟨none, { beginTransaction with committed := true }, [], false⟩
       ∧ ({ beginTransaction with committed := true } : Tx).rollback (some "boom")
          = ⟨none, { beginTransaction with committed := true }, [], false⟩
       ∧ ({ beginTransaction with committed := true } : Tx).finish (some "e") (some "boom")
          = ⟨some "e", { beginTransaction with committed := true }, [], false⟩
       ∧ (beginTransaction.rollback none).tx.commit (some "boom")
          = ⟨none, (beginTransaction.rollback none).tx, [], false⟩
       ∧ (beginTransaction.commit none).tx.rollback (some "boom")
          = ⟨none, (beginTransaction.commit none).tx, [], false⟩) :=
  ⟨Or.inl rfl, rfl, rfl,
   c6_terminal_idempotent { beginTransaction with committed := true } beginTransaction
     (some "boom") (some "e") (Or.inl rfl) rfl rfl⟩

/-- C5: deferred operations queued on an open transaction run exactly in
FIFO order when the transaction commits successfully — a failing
operation (its `err` field) neither stops later operations nor reverses
the commit — and none of them runs on rollback, where the queue is
discarded. -/
theorem c5_deferred_fifo (tx : Tx) (a b : CacheOp)
    (hc : tx.committed = false) (hr : tx.rolledBack = false) :
    ((tx.queueCacheOperation a).queueCacheOperation b).commit none
      = ⟨none,
         { tx with
            committed := true
            cacheManager := ⟨[]⟩ },
         (tx.cacheManager.pendingOperations ++ [a, b]).map CacheOp.opId, true⟩
    ∧ ((tx.queueCacheOperation a).queueCacheOperation b).rollback none
      = ⟨none,
         { tx with
            rolledBack := true
            cacheManager := ⟨[]⟩ },
         [], true⟩ := by
  constructor
  · simp [Tx.queueCacheOperation, Tx.commit, hc, hr,
      TransactionCacheManager.queueOperation, TransactionCacheManager.executeOnCommit,
      execLoop_eq_map]
  · simp [Tx.queueCacheOperation, Tx.rollback, hc, hr,
      TransactionCacheManager.queueOperation, TransactionCacheManager.clearOnRollback]

/-- Witness for C5: a fresh transaction with a failing first operation
and a succeeding second one — both run, in order, on commit; neither
runs on rollback. -/
theorem c5_deferred_fifo_witness :
    beginTransaction.committed = false
    ∧ beginTransaction.rolledBack = false
    ∧ (((beginTransaction.queueCacheOperation ⟨1, some "cache down"⟩).queueCacheOperation
          ⟨2, none⟩).commit none
        = ⟨none,
           { beginTransaction with
              committed := true
              cacheManager := ⟨[]⟩ },
           [1, 2], true⟩
       ∧ ((beginTransaction.queueCacheOperation ⟨1, some "cache down"⟩).queueCacheOperation
          ⟨2, none⟩).rollback none
        = ⟨none,
           { beginTransaction with
              rolledBack := true
              cacheManager := ⟨[]⟩ },
           [], true⟩) :=
  ⟨rfl, rfl,
   c5_deferred_fifo beginTransaction ⟨1, some "cache down"⟩ ⟨2, none⟩ rfl rfl⟩

/-- C7: column subtype resolution never fails the write: on a cache miss
where the metadata lookup errors or reports a type that is neither
`json` nor `jsonb`, the resolver returns `jsonb`; every result is cached
under the key `"table.column"`; and a second resolution of the same pair
returns the cached value without issuing another metadata query (shown
by running it against a different lookup function, with the
query-issued flag false). -/
theorem c7_column_type_resolution
    (metaLookup metaLookup2 : String → String → Option String)
    (cache : ColumnTypeCache) (table col : String)
    (hmiss : cache (table ++ "." ++ col) = none)
    (hbad : ∀ dt, metaLookup table col = some dt → dt ≠ "json" ∧ dt ≠ "jsonb") :
    (getJSONColumnType metaLookup cache table col).1 = "jsonb"
    ∧ (getJSONColumnType metaLookup cache table col).2.1 (table ++ "." ++ col)
        = some (getJSONColumnType metaLookup cache table col).1
    ∧ getJSONColumnType metaLookup2
        (getJSONColumnType metaLookup cache table col).2.1 table col
        = ((getJSONColumnType metaLookup cache table col).1,
           (getJSONColumnType metaLookup cache table col).2.1, false) := by
  refine ⟨?_, ?_, ?_⟩
  · cases hm : metaLookup table col with
    | none => simp [getJSONColumnType, hmiss, hm]
    | some dt =>
      obtain ⟨h1, h2⟩ := hbad dt hm
      simp [getJSONColumnType, hmiss, hm, h1, h2]
  · simp [getJSONColumnType, hmiss, cacheStore]
  · simp [getJSONColumnType, hmiss, cacheStore]

/-- Witness for C7: empty cache, a metadata lookup reporting `text`, and
a different second lookup reporting `json` that is never consulted. -/
theorem c7_column_type_resolution_witness :
    emptyColumnTypeCache ("test_users" ++ "." ++ "whats_app_data") = none
    ∧ (∀ dt, (fun _ _ => some "text") "test_users" "whats_app_data" = some dt →
        dt ≠ "json" ∧ dt ≠ "jsonb")
    ∧ ((getJSONColumnType (fun _ _ => some "text") emptyColumnTypeCache
          "test_users" "whats_app_data").1 = "jsonb"
       ∧ (getJSONColumnType (fun _ _ => some "text") emptyColumnTypeCache
            "test_users" "whats_app_data").2.1 ("test_users" ++ "." ++ "whats_app_data")
          = some (getJSONColumnType (fun _ _ => some "text") emptyColumnTypeCache
            "test_users" "whats_app_data").1
       ∧ getJSONColumnType (fun _ _ => some "json")
           (getJSONColumnType (fun _ _ => some "text") emptyColumnTypeCache
             "test_users" "whats_app_data").2.1 "test_users" "whats_app_data"
          = ((getJSONColumnType (fun _ _ => some "text") emptyColumnTypeCache
                "test_users" "whats_app_data").1,
             (getJSONColumnType (fun _ _ => some "text") emptyColumnTypeCache
                "test_users" "whats_app_data").2.1, false)) :=
  ⟨rfl,
   fun dt h => by cases h; exact ⟨by decide, by decide⟩,
   c7_column_type_resolution (fun _ _ => some "text") (fun _ _ => some "json")
     emptyColumnTypeCache "test_users" "whats_app_data" rfl
     (fun dt h => by cases h; exact ⟨by decide, by decide⟩)⟩

/-- C8: a sub-path whose value cannot be serialized is skipped locally:
the compiled argument list contains the seed column reference plus one
JSON argument for exactly the (sorted) sub-paths whose values marshal —
an unserializable path contributes nothing, the others are unaffected,
and no error is produced; plain (non-dotted) entries of a processed
change-set pass through untouched.  The closed conjunct shows a column
with one unserializable and one good path compiling to a single-step
expression. -/
theorem c8_marshal_skip (schemaLookup : String → Option GormField)
    (metaLookup : String → String → Option String) (cache : ColumnTypeCache)
    (tableName fieldName : String) (paths : List (String × GoVal)) (diff : DiffMap) :
    (buildJSONBSetExpression schemaLookup metaLookup cache tableName fieldName paths).1.args
      = Arg.column (columnNameFor schemaLookup fieldName)
        :: buildArgsSpec paths ((paths.map Prod.fst).insertionSort strLe)
    ∧ (processJSONBDiff schemaLookup metaLookup cache tableName diff).1
      = diff.filter (fun p => !(containsDot p.1))
        ++ (compileGroups schemaLookup metaLookup cache tableName
              (diff.foldl groupStep ([], [])).2).1
    ∧ (buildJSONBSetExpression (fun _ => none) (fun _ _ => none) emptyColumnTypeCache
        "test_users" "whatsAppData"
        [("status.mode", GoVal.str "OK"), ("status.bad", GoVal.unserializable)]).1
      = ⟨"jsonb_set(COALESCE(?::jsonb, '\x7b\x7d'::jsonb), '\x7bstatus,mode\x7d', ?::jsonb)",
         [Arg.column "whatsAppData", Arg.json "\"OK\""]⟩ := by
  refine ⟨build_args_eq _ _ _ _ _ _, ?_, by decide⟩
  show (List.foldl groupStep ([], []) diff).1
      ++ (compileGroups schemaLookup metaLookup cache tableName
            (List.foldl groupStep ([], []) diff).2).1
    = _
  rw [groupFold_plain diff ([], [])]
  simp

theorem valOf_marshal_isSome (paths : List (String × GoVal))
    (hm : ∀ p ∈ paths, GoVal.marshal p.2 ≠ none) (k : String)
    (hk : k ∈ paths.map Prod.fst) :
    ((valOf paths k).bind GoVal.marshal).isSome = true := by
  obtain ⟨p, hp, hpk⟩ := List.mem_map.mp hk
  cases hfind : paths.find? (fun q => q.1 = k) with
  | none =>
    have hnone := List.find?_eq_none.mp hfind p hp
    simp [hpk] at hnone
  | some q =>
    have hq : q ∈ paths := List.mem_of_find?_eq_some hfind
    have hqm := hm q hq
    simp only [valOf, hfind, Option.map_some, Option.some_bind]
    exact Option.isSome_iff_ne_none.mpr hqm

theorem argsSpec_eq_map (paths : List (String × GoVal)) (ks : List String)
    (h : ∀ k ∈ ks, ((valOf paths k).bind GoVal.marshal).isSome = true) :
    buildArgsSpec paths ks
      = ks.map fun k => Arg.json (((valOf paths k).bind GoVal.marshal).getD "") := by
  induction ks with
  | nil => rfl
  | cons k rest ih =>
    have hk := h k (by simp)
    obtain ⟨js, hjs⟩ := Option.isSome_iff_exists.mp hk
    have hf : ((valOf paths k).bind fun v => v.marshal.map Arg.json)
        = some (Arg.json js) := by
      cases hvo : valOf paths k with
      | none => simp [hvo] at hjs
      | some v =>
        simp only [hvo, Option.some_bind] at hjs ⊢
        simp [hjs]
    have ihr := ih (fun k2 hk2 => h k2 (by simp [hk2]))
    have hcons : buildArgsSpec paths (k :: rest) = Arg.json js :: buildArgsSpec paths rest := by
      simp [buildArgsSpec, List.filterMap_cons, hf]
    rw [hcons, ihr, List.map_cons, hjs]
    rfl

/-- C3: the compiled patch for one semi-structured column is a single
expression seeded with the column value coalesced to an empty document
and cast to the resolver's subtype, with exactly one set-at-path step
per dotted sub-path (when every value serializes), the steps ordered by
the sorted sub-paths; and compilation is deterministic: any reordering
of the same sub-path map compiles to the identical expression. -/
theorem c3_patch_compilation (schemaLookup : String → Option GormField)
    (metaLookup : String → String → Option String) (cache : ColumnTypeCache)
    (tableName fieldName : String) (paths paths' : List (String × GoVal))
    (hm : ∀ p ∈ paths, GoVal.marshal p.2 ≠ none)
    (hnd : (paths.map Prod.fst).Nodup)
    (hperm : paths'.Perm paths) :
    buildJSONBSetExpression schemaLookup metaLookup cache tableName fieldName paths'
      = buildJSONBSetExpression schemaLookup metaLookup cache tableName fieldName paths
    ∧ (buildJSONBSetExpression schemaLookup metaLookup cache tableName fieldName paths).1.args
      = Arg.column (columnNameFor schemaLookup fieldName)
        :: ((paths.map Prod.fst).insertionSort strLe).map
            (fun k => Arg.json (((valOf paths k).bind GoVal.marshal).getD ""))
    ∧ (buildJSONBSetExpression schemaLookup metaLookup cache tableName fieldName paths).1.sql
      = buildSqlSpec paths
          ("COALESCE(?::"
            ++ (getJSONColumnType metaLookup cache tableName
                  (columnNameFor schemaLookup fieldName)).1
            ++ ", '\x7b\x7d'::jsonb)")
          ((paths.map Prod.fst).insertionSort strLe) := by
  refine ⟨?_, ?_, build_sql_eq _ _ _ _ _ _⟩
  · have hsort : (paths'.map Prod.fst).insertionSort strLe
        = (paths.map Prod.fst).insertionSort strLe :=
      sort_perm_eq (hperm.map Prod.fst)
    have hstep : ∀ acc k, buildStep paths' acc k = buildStep paths acc k := by
      intro acc k
      unfold buildStep
      rw [valOf_perm hperm hnd]
    simp only [buildJSONBSetExpression]
    rw [hsort,
      List.foldl_ext (buildStep paths') (buildStep paths) _
        (fun acc b _ => hstep acc b)]
  · rw [build_args_eq]
    rw [argsSpec_eq_map paths _
      (fun k hk => valOf_marshal_isSome paths hm k (by simpa using hk))]

/-- Witness for C3: two orderings of the same two-path map compile to
the identical nested expression, with steps in lexicographic order. -/
theorem c3_patch_compilation_witness :
    (∀ p ∈ ([("status.mode", GoVal.str "C"), ("status.state", GoVal.str "N")]
        : List (String × GoVal)), GoVal.marshal p.2 ≠ none)
    ∧ ((([("status.mode", GoVal.str "C"), ("status.state", GoVal.str "N")]
        : List (String × GoVal)).map Prod.fst).Nodup)
    ∧ (([("status.state", GoVal.str "N"), ("status.mode", GoVal.str "C")]
        : List (String × GoVal)).Perm
        [("status.mode", GoVal.str "C"), ("status.state", GoVal.str "N")])
    ∧ (buildJSONBSetExpression (fun _ => none) (fun _ _ => none) emptyColumnTypeCache
        "test_users" "whatsAppData"
        [("status.state", GoVal.str "N"), ("status.mode", GoVal.str "C")]
      = buildJSONBSetExpression (fun _ => none) (fun _ _ => none) emptyColumnTypeCache
        "test_users" "whatsAppData"
        [("status.mode", GoVal.str "C"), ("status.state", GoVal.str "N")]
      ∧ (buildJSONBSetExpression (fun _ => none) (fun _ _ => none) emptyColumnTypeCache
          "test_users" "whatsAppData"
          [("status.mode", GoVal.str "C"), ("status.state", GoVal.str "N")]).1.args
        = Arg.column (columnNameFor (fun _ => none) "whatsAppData")
          :: ((([("status.mode", GoVal.str "C"), ("status.state", GoVal.str "N")]
              : List (String × GoVal)).map Prod.fst).insertionSort strLe).map
              (fun k => Arg.json
                (((valOf [("status.mode", GoVal.str "C"), ("status.state", GoVal.str "N")] k).bind
                    GoVal.marshal).getD ""))
      ∧ (buildJSONBSetExpression (fun _ => none) (fun _ _ => none) emptyColumnTypeCache
          "test_users" "whatsAppData"
          [("status.mode", GoVal.str "C"), ("status.state", GoVal.str "N")]).1.sql
        = buildSqlSpec [("status.mode", GoVal.str "C"), ("status.state", GoVal.str "N")]
            ("COALESCE(?::"
              ++ (getJSONColumnType (fun _ _ => none) emptyColumnTypeCache "test_users"
                    (columnNameFor (fun _ => none) "whatsAppData")).1
              ++ ", '\x7b\x7d'::jsonb)")
            ((([("status.mode", GoVal.str "C"), ("status.state", GoVal.str "N")]
              : List (String × GoVal)).map Prod.fst).insertionSort strLe)) :=
  ⟨by decide, by decide, by decide,
   c3_patch_compilation (fun _ => none) (fun _ _ => none) emptyColumnTypeCache
     "test_users" "whatsAppData"
     [("status.mode", GoVal.str "C"), ("status.state", GoVal.str "N")]
     [("status.state", GoVal.str "N"), ("status.mode", GoVal.str "C")]
     (by decide) (by decide) (by decide)⟩

theorem mem_ite_nil {α : Type} {c : Prop} [Decidable c] {l : List α} {p : α}
    (h : p ∈ (if c then l else [])) : p ∈ l := by
  split at h
  · exact h
  · simp at h

theorem whatsAppStatus_diffCore_marshalable (s1 s2 : WhatsAppStatus) :
    ∀ p ∈ WhatsAppStatus.diffCore s1 s2, p.2.marshal.isSome = true := by
  intro p hp
  simp only [WhatsAppStatus.diffCore, List.mem_append] at hp
  rcases hp with ((((((hp | hp) | hp) | hp) | hp) | hp) | hp) | hp <;>
    · have hp2 := List.mem_singleton.mp (mem_ite_nil hp)
      subst hp2
      rfl

theorem whatsAppData_statusFieldDiff_marshalable (a b : Option WhatsAppStatus) :
    ∀ p ∈ WhatsAppData.statusFieldDiff a b, p.2.marshal.isSome = true := by
  intro p hp
  cases a with
  | some s1 =>
    cases b with
    | some s2 =>
      simp only [WhatsAppData.statusFieldDiff] at hp
      split at hp
      · obtain ⟨q, hq, rfl⟩ := List.mem_map.mp hp
        exact whatsAppStatus_diffCore_marshalable s1 s2 q hq
      · simp at hp
    | none =>
      simp only [WhatsAppData.statusFieldDiff] at hp
      have hp2 := List.mem_singleton.mp (mem_ite_nil hp)
      subst hp2
      rfl
  | none =>
    cases b with
    | some s2 =>
      simp only [WhatsAppData.statusFieldDiff] at hp
      have hp2 := List.mem_singleton.mp (mem_ite_nil hp)
      subst hp2
      rfl
    | none =>
      simp only [WhatsAppData.statusFieldDiff] at hp
      have hp2 := List.mem_singleton.mp (mem_ite_nil hp)
      subst hp2
      rfl

theorem whatsAppData_diffCore_marshalable (w1 w2 : WhatsAppData) :
    ∀ p ∈ WhatsAppData.diffCore w1 w2, p.2.marshal.isSome = true := by
  intro p hp
  simp only [WhatsAppData.diffCore, List.mem_append] at hp
  rcases hp with (hp | hp) | hp
  · have hp2 := List.mem_singleton.mp (mem_ite_nil hp)
    subst hp2
    rfl
  · exact whatsAppData_statusFieldDiff_marshalable w1.status w2.status p hp
  · have hp2 := List.mem_singleton.mp (mem_ite_nil hp)
    subst hp2
    rfl

theorem marshalDiffMapFields_eq (m : DiffMap)
    (h : ∀ p ∈ m, p.2.marshal.isSome = true) :
    marshalDiffMapFields m
      = some (m.map fun p => "\"" ++ p.1 ++ "\":" ++ p.2.marshal.getD "") := by
  induction m with
  | nil => rfl
  | cons p rest ih =>
    obtain ⟨js, hjs⟩ := Option.isSome_iff_exists.mp (h p (by simp))
    have ihr := ih (fun q hq => h q (by simp [hq]))
    simp [marshalDiffMapFields, hjs, ihr]

theorem string_eq_of_data {s t : String} (h : s.data = t.data) : s = t := by
  cases s; cases t; exact congrArg String.mk h

theorem intercalate_go_data (s : String) :
    ∀ (as : List String) (acc : String),
    ∃ t, (String.intercalate.go acc s as).data = acc.data ++ t := by
  intro as
  induction as with
  | nil =>
    intro acc
    exact ⟨[], by rw [show String.intercalate.go acc s [] = acc from rfl]; simp⟩
  | cons a as ih =>
    intro acc
    obtain ⟨t, ht⟩ := ih (acc ++ s ++ a)
    exact ⟨s.data ++ a.data ++ t, by
      rw [show String.intercalate.go acc s (a :: as)
            = String.intercalate.go (acc ++ s ++ a) s as from rfl, ht]
      simp [String.data_append]⟩

theorem intercalate_cons_data (s f : String) (fs : List String) :
    ∃ t, (String.intercalate s (f :: fs)).data = f.data ++ t :=
  intercalate_go_data s fs f

theorem isEmptyJSON_brace_quote (mid : String) (hmid : ∃ t, mid.data = '"' :: t) :
    isEmptyJSON ("\x7b" ++ mid ++ "\x7d") = false := by
  obtain ⟨t, ht⟩ := hmid
  have hd1 : ("\x7b" : String).data = ['{'] := by decide
  have hd2 : ("\x7d" : String).data = ['}'] := by decide
  have hw1 : wsChar '{' = false := by decide
  have hw2 : wsChar '}' = false := by decide
  have hdata : ("\x7b" ++ mid ++ "\x7d").data = '{' :: '"' :: (t ++ ['}']) := by
    rw [String.data_append, String.data_append, hd1, hd2, ht]
    simp
  have htrim : trimSpace ("\x7b" ++ mid ++ "\x7d") = "\x7b" ++ mid ++ "\x7d" := by
    apply string_eq_of_data
    show ((("\x7b" ++ mid ++ "\x7d").data.dropWhile wsChar).reverse.dropWhile
        wsChar).reverse = ("\x7b" ++ mid ++ "\x7d").data
    rw [hdata]
    simp [List.dropWhile_cons, hw1, hw2, List.reverse_append]
  have hne1 : ("\x7b" ++ mid ++ "\x7d") ≠ "\x7b\x7d" := by
    intro heq
    have hh := congrArg String.data heq
    rw [hdata, show ("\x7b\x7d" : String).data = ['{', '}'] from by decide] at hh
    simp at hh
  have hne2 : ("\x7b" ++ mid ++ "\x7d") ≠ "[]" := by
    intro heq
    have hh := congrArg String.data heq
    rw [hdata, show ("[]" : String).data = ['[', ']'] from by decide] at hh
    simp at hh
  have hne3 : ("\x7b" ++ mid ++ "\x7d") ≠ "null" := by
    intro heq
    have hh := congrArg String.data heq
    rw [hdata, show ("null" : String).data = ['n', 'u', 'l', 'l'] from by decide] at hh
    simp at hh
  simp [isEmptyJSON, htrim, hne1, hne2, hne3]

theorem marshalDiffMap_merge (m : DiffMap) (hm : m ≠ [])
    (h : ∀ p ∈ m, p.2.marshal.isSome = true) :
    ∃ js, marshalDiffMap m = some js ∧ isEmptyJSON js = false := by
  cases m with
  | nil => exact absurd rfl hm
  | cons p rest =>
    have hfields := marshalDiffMapFields_eq (p :: rest) h
    refine ⟨"\x7b" ++ String.intercalate ","
        ((p :: rest).map fun q => "\"" ++ q.1 ++ "\":" ++ q.2.marshal.getD "") ++ "\x7d",
      by simp [marshalDiffMap, hfields], ?_⟩
    apply isEmptyJSON_brace_quote
    obtain ⟨t, ht⟩ := intercalate_cons_data ","
      ("\"" ++ p.1 ++ "\":" ++ p.2.marshal.getD "")
      (rest.map fun q => "\"" ++ q.1 ++ "\":" ++ q.2.marshal.getD "")
    have hq : ("\"" : String).data = ['"'] := by decide
    refine ⟨p.1.data ++ ("\":" : String).data ++ (p.2.marshal.getD "").data ++ t, ?_⟩
    rw [List.map_cons, ht]
    simp [String.data_append, hq]

/-- C2 counterexample: with both sides of the `WhatsAppData` field
non-nil and a non-empty nested diff (only `Error` changed), the generated
`TestUser.Diff` does NOT re-root the nested keys under
`"whatsAppData."` — it emits a single non-dotted `"whatsAppData"` entry
holding a `||`-merge expression, and the change-set contains no dotted
key at all. -/
theorem c2_counterexample :
    WhatsAppData.diffCore ⟨"boom", none, "drv"⟩ ⟨"", none, "drv"⟩
      = [("error", GoVal.str "boom")]
    ∧ TestUser.diffCore
        ⟨"id1", "n", "e", 30, true, none, none, [], none, some ⟨"boom", none, "drv"⟩⟩
        ⟨"id1", "n", "e", 30, true, none, none, [], none, some ⟨"", none, "drv"⟩⟩
      = [("whatsAppData",
          GoVal.expr ⟨"? || ?",
            [Arg.column "whats_app_data", Arg.json "\x7b\"error\":\"boom\"\x7d"]⟩)]
    ∧ (TestUser.diffCore
        ⟨"id1", "n", "e", 30, true, none, none, [], none, some ⟨"boom", none, "drv"⟩⟩
        ⟨"id1", "n", "e", 30, true, none, none, [], none, some ⟨"", none, "drv"⟩⟩).find?
        (fun p => containsDot p.1) = none := by
  refine ⟨by decide, by decide, by decide⟩

/-- C2 amended: with both sides non-nil and a non-empty nested diff, the
top-level jsonb branch re-roots every key under `"<fieldName>."` only
when the nested diff already contains dotted keys; when it contains
none, the change-set holds exactly one entry for the field, keyed by the
bare field name and holding the `||`-merge expression over the
serialized changed attributes (the nested diff always serializes, and
never to an empty document).  One level down, the `Status` branch of
`WhatsAppData.Diff` always re-roots under `"status."`. -/
theorem c2_amended_flattening (w1 w2 : WhatsAppData) (s1 s2 : WhatsAppStatus)
    (hne : WhatsAppData.diffCore w1 w2 ≠ []) :
    (hasFlattenedPaths (WhatsAppData.diffCore w1 w2) = true →
      TestUser.whatsAppDataFieldDiff (some w1) (some w2)
        = (WhatsAppData.diffCore w1 w2).map (fun p => ("whatsAppData." ++ p.1, p.2)))
    ∧ (hasFlattenedPaths (WhatsAppData.diffCore w1 w2) = false →
      TestUser.whatsAppDataFieldDiff (some w1) (some w2)
        = [("whatsAppData", GoVal.expr ⟨"? || ?",
            [Arg.column "whats_app_data",
             Arg.json ((marshalDiffMap (WhatsAppData.diffCore w1 w2)).getD "")]⟩)])
    ∧ WhatsAppData.statusFieldDiff (some s1) (some s2)
        = (WhatsAppStatus.diffCore s1 s2).map (fun p => ("status." ++ p.1, p.2)) := by
  have hlen : 0 < (WhatsAppData.diffCore w1 w2).length := List.length_pos.mpr hne
  refine ⟨?_, ?_, ?_⟩
  · intro hflat
    simp [TestUser.whatsAppDataFieldDiff, hlen, hflat]
  · intro hflat
    obtain ⟨js, hjs, hempty⟩ :=
      marshalDiffMap_merge _ hne (whatsAppData_diffCore_marshalable w1 w2)
    simp only [TestUser.whatsAppDataFieldDiff, hlen, if_true, hflat, Bool.false_eq_true,
      if_false]
    rw [hjs]
    simp [hempty]
  · by_cases hs : WhatsAppStatus.diffCore s1 s2 = []
    · simp [WhatsAppData.statusFieldDiff, hs]
    · simp [WhatsAppData.statusFieldDiff, List.length_pos.mpr hs]

/-- Witness for C2 amended at concrete nested documents: a flat nested
diff (only `Error` changed) and a dotted status diff (only `Mode`
changed). -/
theorem c2_amended_flattening_witness :
    (WhatsAppData.diffCore ⟨"boom", none, "drv"⟩ ⟨"", none, "drv"⟩ ≠ [])
    ∧ ((hasFlattenedPaths (WhatsAppData.diffCore ⟨"boom", none, "drv"⟩ ⟨"", none, "drv"⟩) = true →
        TestUser.whatsAppDataFieldDiff (some ⟨"boom", none, "drv"⟩) (some ⟨"", none, "drv"⟩)
          = (WhatsAppData.diffCore ⟨"boom", none, "drv"⟩ ⟨"", none, "drv"⟩).map
              (fun p => ("whatsAppData." ++ p.1, p.2)))
       ∧ (hasFlattenedPaths (WhatsAppData.diffCore ⟨"boom", none, "drv"⟩ ⟨"", none, "drv"⟩) = false →
          TestUser.whatsAppDataFieldDiff (some ⟨"boom", none, "drv"⟩) (some ⟨"", none, "drv"⟩)
            = [("whatsAppData", GoVal.expr ⟨"? || ?",
                [Arg.column "whats_app_data",
                 Arg.json ((marshalDiffMap
                   (WhatsAppData.diffCore ⟨"boom", none, "drv"⟩ ⟨"", none, "drv"⟩)).getD "")]⟩)])
       ∧ WhatsAppData.statusFieldDiff
           (some ⟨"CONNECTED", "NORMAL", true, "", false, false, "", ""⟩)
           (some ⟨"QR", "NORMAL", true, "", false, false, "", ""⟩)
         = (WhatsAppStatus.diffCore
             ⟨"CONNECTED", "NORMAL", true, "", false, false, "", ""⟩
             ⟨"QR", "NORMAL", true, "", false, false, "", ""⟩).map
             (fun p => ("status." ++ p.1, p.2))) :=
  ⟨by decide,
   c2_amended_flattening ⟨"boom", none, "drv"⟩ ⟨"", none, "drv"⟩
     ⟨"CONNECTED", "NORMAL", true, "", false, false, "", ""⟩
     ⟨"QR", "NORMAL", true, "", false, false, "", ""⟩ (by decide)⟩

/-- C4 counterexample: with the old value nil and the new value a
non-nil pointer to a zero-valued document (which serializes to `"{}"`),
the generated diff emits NO entry for the field, not the single
whole-document merge entry the claim requires. -/
theorem c4_counterexample :
    TestUser.dataFieldDiff (some ⟨0, "", false⟩) none = []
    ∧ (some (⟨0, "", false⟩ : UserData)).isSome = true := by
  refine ⟨by decide, rfl⟩

/-- C4 amended: for the two jsonb fields, both-nil produces no entry;
nil→non-nil produces a single whole-document merge entry holding the
entire serialized new value — unless the new value serializes to an
empty JSON document, in which case no entry is emitted; non-nil→nil
produces an explicit null entry, distinct from no entry. -/
theorem c4_amended_nil_transitions (d d0 : UserData) (w : WhatsAppData)
    (hd : isEmptyJSON d.marshalJson = false)
    (hw : isEmptyJSON w.marshalJson = false)
    (hd0 : isEmptyJSON d0.marshalJson = true) :
    TestUser.dataFieldDiff none none = []
    ∧ TestUser.dataFieldDiff (some d) none
        = [("data", GoVal.expr ⟨"? || ?", [Arg.column "data", Arg.json d.marshalJson]⟩)]
    ∧ TestUser.dataFieldDiff none (some d) = [("data", GoVal.null)]
    ∧ TestUser.whatsAppDataFieldDiff none none = []
    ∧ TestUser.whatsAppDataFieldDiff (some w) none
        = [("whatsAppData",
            GoVal.expr ⟨"? || ?", [Arg.column "whats_app_data", Arg.json w.marshalJson]⟩)]
    ∧ TestUser.whatsAppDataFieldDiff none (some w) = [("whatsAppData", GoVal.null)]
    ∧ TestUser.dataFieldDiff (some d0) none = [] := by
  refine ⟨rfl, ?_, rfl, rfl, ?_, rfl, ?_⟩
  · simp [TestUser.dataFieldDiff, GoVal.marshal, hd]
  · simp [TestUser.whatsAppDataFieldDiff, GoVal.marshal, hw]
  · simp [TestUser.dataFieldDiff, GoVal.marshal, hd0]

/-- Witness for C4 amended at concrete documents: a `UserData` with
`Day = 1` (serializes non-empty), a `WhatsAppData` with an error set,
and the zero `UserData` (serializes to `"{}"`). -/
theorem c4_amended_nil_transitions_witness :
    isEmptyJSON (UserData.marshalJson ⟨1, "", false⟩) = false
    ∧ isEmptyJSON (WhatsAppData.marshalJson ⟨"x", none, ""⟩) = false
    ∧ isEmptyJSON (UserData.marshalJson ⟨0, "", false⟩) = true
    ∧ (TestUser.dataFieldDiff none none = []
       ∧ TestUser.dataFieldDiff (some ⟨1, "", false⟩) none
          = [("data", GoVal.expr ⟨"? || ?",
              [Arg.column "data", Arg.json (UserData.marshalJson ⟨1, "", false⟩)]⟩)]
       ∧ TestUser.dataFieldDiff none (some ⟨1, "", false⟩) = [("data", GoVal.null)]
       ∧ TestUser.whatsAppDataFieldDiff none none = []
       ∧ TestUser.whatsAppDataFieldDiff (some ⟨"x", none, ""⟩) none
          = [("whatsAppData", GoVal.expr ⟨"? || ?",
              [Arg.column "whats_app_data",
               Arg.json (WhatsAppData.marshalJson ⟨"x", none, ""⟩)]⟩)]
       ∧ TestUser.whatsAppDataFieldDiff none (some ⟨"x", none, ""⟩)
          = [("whatsAppData", GoVal.null)]
       ∧ TestUser.dataFieldDiff (some ⟨0, "", false⟩) none = []) :=
  ⟨by decide, by decide, by decide,
   c4_amended_nil_transitions ⟨1, "", false⟩ ⟨0, "", false⟩ ⟨"x", none, ""⟩
     (by decide) (by decide) (by decide)⟩

end GormRepo
